import Mathlib

/-!
Verification of the seating-chart placement engine (`src/seating_chart.py`).

The Python class `SeatingChartGenerator` is embedded shallowly:

* `Config` models the attribute state of a constructed `SeatingChartGenerator`
  (the fields set in `__init__` after parsing the YAML dictionaries).  Python
  dictionaries (`row_requirements`, `column_requirements`,
  `desk_capacity_overrides`) are modelled as association lists whose keys are
  distinct, the `blocked_desks` / `large_students` sets as lists queried by
  membership.
* A seating chart cell is either the string sentinel `"BLOCKED"` or a list of
  student names; `Cell` mirrors this, and `Seating` is the row-major
  list-of-lists `seating` value.
* Randomness (`random.shuffle`) is made explicit: each shuffle outcome is an
  input.  An `AttemptRand` packages the shuffled student order and the
  shuffled position list of every placement step of one attempt; theorems
  about `generate` quantify over all such inputs that are genuine
  permutations, which covers every run the Python program can perform.
* Python's `list.sort(key=...)` is a stable sort; it is modelled by
  `List.insertionSort` (also stable, hence extensionally the same function)
  on the lexicographic order of `sort_key`.
-/

namespace SeatingChart

/-- The attribute state of a constructed `SeatingChartGenerator`
(`__init__`, src/seating_chart.py lines 19-57).  Positions are 0-indexed
pairs `(row, col)` exactly as stored by the Python code; the
`row_requirements` / `column_requirements` values are the 1-indexed values
from the configuration file. -/
structure Config where
  rows : Nat
  columns : Nat
  students : List String
  blocked_desks : List (Nat × Nat)
  desk_capacity_overrides : List ((Nat × Nat) × Nat × Nat)
  default_min_capacity : Nat
  default_max_capacity : Nat
  cannot_sit_together : List (List String)
  large_students : List String
  row_requirements : List (String × Nat)
  column_requirements : List (String × Nat)
deriving DecidableEq

/-- A seating-chart cell: the Python code stores either the string
`"BLOCKED"` or a (mutable) list of student names at `seating[row][col]`. -/
inductive Cell where
  | blocked : Cell
  | desk : List String → Cell
deriving DecidableEq

/-- The `seating` value: a `rows × columns` row-major list of cells. -/
abbrev Seating := List (List Cell)

/-- Read `seating[row][col]`.  All source accesses are in bounds; out of
bounds we default to `blocked` (which holds no students). -/
def getCell (s : Seating) (row col : Nat) : Cell :=
  (List.getD s row []).getD col Cell.blocked

/-- Write `seating[row][col] = cell` (the effect of the Python in-place
`append` is a write of the extended list). -/
def setCell (s : Seating) (row col : Nat) (cell : Cell) : Seating :=
  List.set s row ((List.getD s row []).set col cell)

/-- `_get_desk_capacity` (lines 92-96): the `(min, max)` capacity of a desk,
from the overrides dictionary or the classroom-wide default. -/
def get_desk_capacity (cfg : Config) (row col : Nat) : Nat × Nat :=
  match cfg.desk_capacity_overrides.find? (fun o => o.1 == (row, col)) with
  | some o => o.2
  | none => (cfg.default_min_capacity, cfg.default_max_capacity)

/-- `_get_neighbors` (lines 98-113): the up/down/left/right neighbours that
exist in the grid (no diagonals, no wraparound). -/
def get_neighbors (cfg : Config) (row col : Nat) : List (Nat × Nat) :=
  (if 0 < row then [(row - 1, col)] else []) ++
  (if row < cfg.rows - 1 then [(row + 1, col)] else []) ++
  (if 0 < col then [(row, col - 1)] else []) ++
  (if col < cfg.columns - 1 then [(row, col + 1)] else [])

/-- `_get_students_at_desk` (lines 115-117): the students at a desk, `[]`
for a blocked cell. -/
def get_students_at_desk (s : Seating) (row col : Nat) : List String :=
  match getCell s row col with
  | Cell.blocked => []
  | Cell.desk l => l

/-- `_get_students_at_adjacent_desks` (lines 119-126): all students at
neighbouring desks.  The Python code builds a set and only ever tests
membership in it, so a concatenated list is an equivalent model. -/
def get_students_at_adjacent_desks (cfg : Config) (s : Seating) (row col : Nat) :
    List String :=
  (get_neighbors cfg row col).flatMap (fun p => get_students_at_desk s p.1 p.2)

/-- Dictionary lookup `student in d` / `d[student]` for the requirement
dictionaries (association lists with distinct keys). -/
def req_lookup (reqs : List (String × Nat)) (student : String) : Option Nat :=
  (reqs.find? (fun p => p.1 == student)).map Prod.snd

/-- `_check_constraints` (lines 128-173): whether placing `student` at desk
`(row, col)` is legal for the current partial seating.  Evaluates, in the
source's order: pinned row, pinned column, capacity (occupant count against
the max capacity, capped at 2 if the candidate or any resident is large),
same-desk mutual exclusion, adjacent-desk mutual exclusion. -/
def check_constraints (cfg : Config) (s : Seating) (student : String)
    (row col : Nat) : Bool :=
  (match req_lookup cfg.row_requirements student with
   | some required_row => row == required_row - 1
   | none => true) &&
  (match req_lookup cfg.column_requirements student with
   | some required_col => col == required_col - 1
   | none => true) &&
  (let current_desk_students := get_students_at_desk s row col
   let max_capacity0 := (get_desk_capacity cfg row col).2
   let max_capacity1 :=
     if cfg.large_students.contains student then min max_capacity0 2 else max_capacity0
   let max_capacity :=
     if current_desk_students.any (fun d => cfg.large_students.contains d)
     then min max_capacity1 2 else max_capacity1
   decide (current_desk_students.length < max_capacity)) &&
  ((get_students_at_desk s row col).all (fun d =>
     cfg.cannot_sit_together.all (fun g => !(g.contains student && g.contains d)))) &&
  ((get_students_at_adjacent_desks cfg s row col).all (fun a =>
     cfg.cannot_sit_together.all (fun g => !(g.contains student && g.contains a))))

/-- The initial chart of one attempt (lines 179-183): every cell an empty
desk, then blocked cells marked `BLOCKED`. -/
def initial_seating (cfg : Config) : Seating :=
  (List.range cfg.rows).map (fun r =>
    (List.range cfg.columns).map (fun c =>
      if (r, c) ∈ cfg.blocked_desks then Cell.blocked else Cell.desk []))

/-- The candidate position list of one placement step (lines 195-200): all
non-blocked positions in row-major order. -/
def available_positions (cfg : Config) (s : Seating) : List (Nat × Nat) :=
  (List.range cfg.rows).flatMap (fun r =>
    ((List.range cfg.columns).filter (fun c => !(getCell s r c == Cell.blocked))).map
      (fun c => (r, c)))

/-- `sort_key` (lines 206-226): the priority key of a candidate position.
Tier 0 = partially filled desks under their (resident-large-adjusted) max,
tier 1 = empty desks, tier 2 = full desks; the second component is the
current occupant count. -/
def sort_key (cfg : Config) (s : Seating) (pos : Nat × Nat) : Nat × Nat :=
  let current_count := (get_students_at_desk s pos.1 pos.2).length
  let max_cap0 := (get_desk_capacity cfg pos.1 pos.2).2
  let max_cap :=
    if (get_students_at_desk s pos.1 pos.2).any (fun st => cfg.large_students.contains st)
    then min max_cap0 2 else max_cap0
  if 0 < current_count ∧ current_count < max_cap then (0, current_count)
  else if current_count = 0 then (1, 0)
  else (2, current_count)

/-- Lexicographic comparison of two positions' sort keys: the order used by
`positions.sort(key=sort_key)`. -/
def sort_key_le (cfg : Config) (s : Seating) (p q : Nat × Nat) : Bool :=
  let kp := sort_key cfg s p
  let kq := sort_key cfg s q
  decide (kp.1 < kq.1) || ((kp.1 == kq.1) && decide (kp.2 ≤ kq.2))

/-- `positions.sort(key=sort_key)` (line 228): Python's `list.sort` is a
stable sort by the key; the stable sort is modelled by `insertionSort`
(any two stable sorts of the same list by the same key coincide). -/
def order_positions (cfg : Config) (s : Seating) (positions : List (Nat × Nat)) :
    List (Nat × Nat) :=
  List.insertionSort (fun p q => sort_key_le cfg s p q = true) positions

/-- The inner scan of one placement step (lines 231-235): try the ordered
candidate positions and place the student at the first legal one, returning
`none` when no position is legal (`placed = False`). -/
def try_positions (cfg : Config) (s : Seating) (student : String) :
    List (Nat × Nat) → Option Seating
  | [] => none
  | p :: rest =>
    if check_constraints cfg s student p.1 p.2 then
      some (setCell s p.1 p.2
        (Cell.desk (get_students_at_desk s p.1 p.2 ++ [student])))
    else try_positions cfg s student rest

/-- The per-student loop of one attempt (lines 191-239).  `shuffles` supplies
the outcome of `random.shuffle(positions)` for each placement step; the code
then stable-sorts that shuffled list by `sort_key` and scans it. -/
def place_students (cfg : Config) :
    Seating → List String → List (List (Nat × Nat)) → Option Seating
  | s, [], _ => some s
  | s, student :: rest, shuffles =>
    match try_positions cfg s student
        (order_positions cfg s (shuffles.headD [])) with
    | some s2 => place_students cfg s2 rest shuffles.tail
    | none => none

/-- The randomness consumed by one attempt: the shuffled student list
(line 186-187) and the shuffled candidate position list of every placement
step (line 204). -/
structure AttemptRand where
  student_order : List String
  position_shuffles : List (List (Nat × Nat))

/-- One full attempt of `generate` (lines 177-239): start from the fresh
chart and place every student in the shuffled order. -/
def run_attempt (cfg : Config) (ar : AttemptRand) : Option Seating :=
  place_students cfg (initial_seating cfg) ar.student_order ar.position_shuffles

/-- The attempt loop of `generate`: run attempts `i, i+1, ...` while
`remaining` attempts are left, returning the first successful chart. -/
def generate_from (cfg : Config) (rands : Nat → AttemptRand) (i : Nat) :
    Nat → Option Seating
  | 0 => none
  | remaining + 1 =>
    match run_attempt cfg (rands i) with
    | some s => some s
    | none => generate_from cfg rands (i + 1) remaining

/-- `generate` (lines 175-249): up to `max_attempts` independent attempts;
the first success returns its chart, and exhaustion raises `RuntimeError`
carrying `max_attempts` (modelled as `Except.error max_attempts`).  A failed
generation carries no grid. -/
def generate (cfg : Config) (max_attempts : Nat) (rands : Nat → AttemptRand) :
    Except Nat Seating :=
  match generate_from cfg rands 0 max_attempts with
  | some s => Except.ok s
  | none => Except.error max_attempts

/-- The total max capacity computed by `_validate` (lines 63-72): the sum of
`max` capacities over all non-blocked desks.  It performs no adjustment for
large students. -/
def max_capacity_total (cfg : Config) : Nat :=
  ((List.range cfg.rows).flatMap (fun r =>
    (List.range cfg.columns).filterMap (fun c =>
      if (r, c) ∈ cfg.blocked_desks then none
      else some (get_desk_capacity cfg r c).2))).sum

/-- `_validate` (lines 61-90) as a predicate: `true` iff construction does
not raise `ValueError`.  It raises iff the student count exceeds
`max_capacity_total`, or some row requirement lies outside `1..rows`, or
some column requirement lies outside `1..columns`. -/
def validate (cfg : Config) : Bool :=
  decide (cfg.students.length ≤ max_capacity_total cfg) &&
  cfg.row_requirements.all (fun p => decide (1 ≤ p.2) && decide (p.2 ≤ cfg.rows)) &&
  cfg.column_requirements.all (fun p => decide (1 ≤ p.2) && decide (p.2 ≤ cfg.columns))

/-- `_verify_min_capacities` (lines 251-275): every non-empty, non-blocked
desk holds at least its min capacity (1 if a large student is present).
`generate` never calls this function. -/
def verify_min_capacities (cfg : Config) (s : Seating) : Bool :=
  (List.range cfg.rows).all (fun r =>
    (List.range cfg.columns).all (fun c =>
      match getCell s r c with
      | Cell.blocked => true
      | Cell.desk desk_students =>
        if desk_students.length = 0 then true
        else
          let min_capacity0 := (get_desk_capacity cfg r c).1
          let min_capacity :=
            if desk_students.any (fun st => cfg.large_students.contains st)
            then 1 else min_capacity0
          decide (min_capacity ≤ desk_students.length)))

/-! ### Claim-facing derived notions -/

/-- The effective max capacity of a desk with occupant list `occ`: the
configured max, capped at 2 when a large student is present. -/
def effective_max (cfg : Config) (row col : Nat) (occ : List String) : Nat :=
  if occ.any (fun st => cfg.large_students.contains st)
  then min (get_desk_capacity cfg row col).2 2
  else (get_desk_capacity cfg row col).2

/-- The occupant weight of a desk: each large student counts 2, every other
student counts 1 (the weighting named by the specification). -/
def occupant_weight (cfg : Config) (occ : List String) : Nat :=
  (occ.map (fun st => if cfg.large_students.contains st then 2 else 1)).sum

/-- The student names held by one cell (none for a blocked cell). -/
def cell_names (cell : Cell) : List String :=
  match cell with
  | Cell.blocked => []
  | Cell.desk l => l

/-- All student names placed anywhere in the chart, row-major. -/
def grid_names (s : Seating) : List String :=
  s.flatMap (fun row => row.flatMap cell_names)

/-- `x` and `y` share no mutual-exclusion group. -/
def no_shared_group (cfg : Config) (x y : String) : Prop :=
  ∀ g ∈ cfg.cannot_sit_together, ¬(x ∈ g ∧ y ∈ g)

/-- The randomness of one attempt is a possible outcome of the program's
shuffles: the student order is a permutation of the student list, and each
placement step's position list is a permutation of the available (non-
blocked) positions, which stay fixed during an attempt. -/
def valid_rand (cfg : Config) (ar : AttemptRand) : Prop :=
  ar.student_order.Perm cfg.students ∧
  ∀ sh ∈ ar.position_shuffles, sh.Perm (available_positions cfg (initial_seating cfg))

instance (cfg : Config) (ar : AttemptRand) : Decidable (valid_rand cfg ar) := by
  unfold valid_rand; infer_instance

/-! ### Basic lemmas about cell access -/

theorem getD_set_self {α : Type} (l : List α) (i : Nat) (x d : α) (h : i < l.length) :
    (l.set i x).getD i d = x := by
  induction l generalizing i with
  | nil => simp at h
  | cons a t ih =>
    cases i with
    | zero => rfl
    | succ j => exact ih j (by simpa using h)

theorem getD_set_ne {α : Type} (l : List α) (i j : Nat) (x d : α) (h : i ≠ j) :
    (l.set i x).getD j d = l.getD j d := by
  induction l generalizing i j with
  | nil => simp
  | cons a t ih =>
    cases i with
    | zero =>
      cases j with
      | zero => exact absurd rfl h
      | succ j2 => rfl
    | succ i2 =>
      cases j with
      | zero => rfl
      | succ j2 => exact ih i2 j2 (fun he => h (by rw [he]))

theorem getCell_setCell_self (s : Seating) (row col : Nat) (cell : Cell)
    (hr : row < s.length) (hc : col < (s.getD row []).length) :
    getCell (setCell s row col cell) row col = cell := by
  unfold getCell setCell
  rw [getD_set_self s row _ _ hr, getD_set_self _ col _ _ hc]

theorem getCell_setCell_ne (s : Seating) (row col r c : Nat) (cell : Cell)
    (h : ¬(r = row ∧ c = col)) :
    getCell (setCell s row col cell) r c = getCell s r c := by
  unfold getCell setCell
  by_cases hr : r = row
  · subst hr
    have hc : c ≠ col := fun he => h ⟨rfl, he⟩
    by_cases hlen : r < s.length
    · rw [getD_set_self s r _ _ hlen, getD_set_ne _ col c _ _ (fun he => hc he.symm)]
    · rw [List.set_eq_of_length_le (Nat.le_of_not_lt hlen)]
  · rw [getD_set_ne s row r _ _ (fun he => hr he.symm)]

theorem get_students_at_desk_setCell_ne (s : Seating) (row col r c : Nat) (cell : Cell)
    (h : ¬(r = row ∧ c = col)) :
    get_students_at_desk (setCell s row col cell) r c = get_students_at_desk s r c := by
  unfold get_students_at_desk
  rw [getCell_setCell_ne s row col r c cell h]

theorem getCell_eq_desk_of_ne_blocked (s : Seating) (r c : Nat)
    (h : getCell s r c ≠ Cell.blocked) :
    getCell s r c = Cell.desk (get_students_at_desk s r c) := by
  unfold get_students_at_desk
  cases hcell : getCell s r c with
  | blocked => exact absurd hcell h
  | desk l => rfl

/-! ### The geometry of `get_neighbors` -/

theorem mem_get_neighbors (cfg : Config) (r c : Nat) (p : Nat × Nat) :
    p ∈ get_neighbors cfg r c ↔
      (0 < r ∧ p = (r - 1, c)) ∨ (r < cfg.rows - 1 ∧ p = (r + 1, c)) ∨
      (0 < c ∧ p = (r, c - 1)) ∨ (c < cfg.columns - 1 ∧ p = (r, c + 1)) := by
  obtain ⟨p1, p2⟩ := p
  unfold get_neighbors
  split_ifs <;> simp_all [Prod.mk.injEq] <;> omega

theorem get_neighbors_ne_self (cfg : Config) (r c : Nat) (p : Nat × Nat)
    (h : p ∈ get_neighbors cfg r c) : p ≠ (r, c) := by
  rw [mem_get_neighbors] at h
  rcases h with ⟨h1, h2⟩ | ⟨h1, h2⟩ | ⟨h1, h2⟩ | ⟨h1, h2⟩ <;> subst h2 <;>
    simp [Prod.mk.injEq] <;> omega

theorem get_neighbors_symm (cfg : Config) (r c : Nat) (p : Nat × Nat)
    (hr : r < cfg.rows) (hc : c < cfg.columns) (h : p ∈ get_neighbors cfg r c) :
    (r, c) ∈ get_neighbors cfg p.1 p.2 := by
  rw [mem_get_neighbors] at h
  rw [mem_get_neighbors]
  rcases h with ⟨h1, h2⟩ | ⟨h1, h2⟩ | ⟨h1, h2⟩ | ⟨h1, h2⟩ <;> subst h2 <;>
    simp [Prod.mk.injEq] <;> omega

/-! ### The attempt invariant -/

/-- Well-formedness of a chart: `rows` rows of `columns` cells each. -/
def WF (cfg : Config) (s : Seating) : Prop :=
  s.length = cfg.rows ∧ ∀ r, r < cfg.rows → (s.getD r []).length = cfg.columns

/-- Symmetry of sharing no mutual-exclusion group. -/
theorem no_shared_group_symm (cfg : Config) (x y : String)
    (h : no_shared_group cfg x y) : no_shared_group cfg y x :=
  fun g hg hxy => h g hg ⟨hxy.2, hxy.1⟩

/-- Everything `generate` preserves from one placement to the next: the
chart stays well-formed, blocked cells are exactly the configured ones, and
every desk satisfies the capacity bound, the two mutual-exclusion conditions
and the pinned row/column requirements. -/
structure Inv (cfg : Config) (s : Seating) : Prop where
  wf : WF cfg s
  blocked : ∀ r c, r < cfg.rows → c < cfg.columns →
    (getCell s r c = Cell.blocked ↔ (r, c) ∈ cfg.blocked_desks)
  cap : ∀ r c, r < cfg.rows → c < cfg.columns →
    (get_students_at_desk s r c).length ≤
      effective_max cfg r c (get_students_at_desk s r c)
  same_desk : ∀ r c, r < cfg.rows → c < cfg.columns →
    (get_students_at_desk s r c).Pairwise (no_shared_group cfg)
  adjacent : ∀ r c, r < cfg.rows → c < cfg.columns →
    ∀ p ∈ get_neighbors cfg r c, ∀ x ∈ get_students_at_desk s r c,
      ∀ y ∈ get_students_at_desk s p.1 p.2, no_shared_group cfg x y
  pinned_row : ∀ r c, r < cfg.rows → c < cfg.columns →
    ∀ x ∈ get_students_at_desk s r c,
      ∀ rr, req_lookup cfg.row_requirements x = some rr → r = rr - 1
  pinned_col : ∀ r c, r < cfg.rows → c < cfg.columns →
    ∀ x ∈ get_students_at_desk s r c,
      ∀ cc, req_lookup cfg.column_requirements x = some cc → c = cc - 1

/-- The capacity bound actually tested by `_check_constraints`: the desk max,
capped at 2 when the candidate is large, then capped at 2 when any resident
is large. -/
def check_max (cfg : Config) (student : String) (occ : List String)
    (row col : Nat) : Nat :=
  let max_capacity0 := (get_desk_capacity cfg row col).2
  let max_capacity1 :=
    if cfg.large_students.contains student then min max_capacity0 2 else max_capacity0
  if occ.any (fun d => cfg.large_students.contains d)
  then min max_capacity1 2 else max_capacity1

/-- The bound checked before placing `student` equals the effective max of
the desk after `student` joins it. -/
theorem check_max_eq_effective_max (cfg : Config) (student : String)
    (occ : List String) (row col : Nat) :
    check_max cfg student occ row col =
      effective_max cfg row col (occ ++ [student]) := by
  unfold check_max effective_max
  rw [List.any_append]
  simp only [List.any_cons, List.any_nil, Bool.or_false]
  cases ho : occ.any (fun d => cfg.large_students.contains d) <;>
    cases hs : cfg.large_students.contains student <;>
      simp [ho, hs, Nat.min_assoc]

/-- What a successful `_check_constraints` guarantees: the pinned row and
column match, the occupant count is under the capped max, and the candidate
shares no mutual-exclusion group with any same-desk or adjacent student. -/
theorem check_constraints_spec (cfg : Config) (s : Seating) (student : String)
    (row col : Nat) (h : check_constraints cfg s student row col = true) :
    (∀ rr, req_lookup cfg.row_requirements student = some rr → row = rr - 1) ∧
    (∀ cc, req_lookup cfg.column_requirements student = some cc → col = cc - 1) ∧
    (get_students_at_desk s row col).length <
      check_max cfg student (get_students_at_desk s row col) row col ∧
    (∀ d ∈ get_students_at_desk s row col, no_shared_group cfg student d) ∧
    (∀ a ∈ get_students_at_adjacent_desks cfg s row col,
      no_shared_group cfg student a) := by
  unfold check_constraints at h
  simp only [Bool.and_eq_true] at h
  obtain ⟨⟨⟨⟨h1, h2⟩, h3⟩, h4⟩, h5⟩ := h
  refine ⟨?_, ?_, ?_, ?_, ?_⟩
  · intro rr heq
    rw [heq] at h1
    simpa using h1
  · intro cc heq
    rw [heq] at h2
    simpa using h2
  · unfold check_max
    simpa using h3
  · intro d hd g hg hmem
    have hall := (List.all_eq_true.mp h4) d hd
    have hg2 := (List.all_eq_true.mp hall) g hg
    simp [List.contains] at hg2
    tauto
  · intro a ha g hg hmem
    have hall := (List.all_eq_true.mp h5) a ha
    have hg2 := (List.all_eq_true.mp hall) g hg
    simp [List.contains] at hg2
    tauto

/-- Placing a student through a successful `_check_constraints` preserves the
attempt invariant. -/
theorem Inv.place (cfg : Config) (s : Seating) (student : String) (row col : Nat)
    (inv : Inv cfg s) (hr : row < cfg.rows) (hc : col < cfg.columns)
    (hnb : (row, col) ∉ cfg.blocked_desks)
    (hchk : check_constraints cfg s student row col = true) :
    Inv cfg (setCell s row col
      (Cell.desk (get_students_at_desk s row col ++ [student]))) := by
  obtain ⟨hlen, hrowlen⟩ := inv.wf
  have hrs : row < s.length := by rw [hlen]; exact hr
  have hcs : col < (s.getD row []).length := by rw [hrowlen row hr]; exact hc
  obtain ⟨hpin_r, hpin_c, hcap, hsame, hadj⟩ :=
    check_constraints_spec cfg s student row col hchk
  have hadj_mem : ∀ y p, p ∈ get_neighbors cfg row col →
      y ∈ get_students_at_desk s p.1 p.2 → no_shared_group cfg student y := by
    intro y p hp hy
    refine hadj y ?_
    unfold get_students_at_adjacent_desks
    rw [List.mem_flatMap]
    exact ⟨p, hp, hy⟩
  have hgs_self : get_students_at_desk
      (setCell s row col (Cell.desk (get_students_at_desk s row col ++ [student])))
      row col = get_students_at_desk s row col ++ [student] := by
    unfold get_students_at_desk
    rw [getCell_setCell_self s row col _ hrs hcs]
  refine ⟨⟨?_, ?_⟩, ?_, ?_, ?_, ?_, ?_, ?_⟩
  · unfold setCell
    rw [List.length_set]
    exact hlen
  · intro r hrr
    unfold setCell
    by_cases hre : r = row
    · subst hre
      rw [getD_set_self s r _ _ hrs, List.length_set]
      exact hrowlen r hrr
    · rw [getD_set_ne s row r _ _ (fun he => hre he.symm)]
      exact hrowlen r hrr
  · intro r c hrr hcc
    by_cases he : r = row ∧ c = col
    · obtain ⟨h1, h2⟩ := he
      subst h1; subst h2
      rw [getCell_setCell_self s r c _ hrs hcs]
      simp only [iff_false, hnb]
      simp
    · rw [getCell_setCell_ne s row col r c _ he]
      exact inv.blocked r c hrr hcc
  · intro r c hrr hcc
    by_cases he : r = row ∧ c = col
    · obtain ⟨h1, h2⟩ := he
      subst h1; subst h2
      rw [hgs_self, List.length_append]
      rw [check_max_eq_effective_max] at hcap
      simpa using hcap
    · rw [get_students_at_desk_setCell_ne s row col r c _ he]
      exact inv.cap r c hrr hcc
  · intro r c hrr hcc
    by_cases he : r = row ∧ c = col
    · obtain ⟨h1, h2⟩ := he
      subst h1; subst h2
      rw [hgs_self, List.pairwise_append]
      refine ⟨inv.same_desk r c hrr hcc, by simp, ?_⟩
      intro a ha b hb
      have hb2 : b = student := by simpa using hb
      rw [hb2]
      exact no_shared_group_symm cfg student a (hsame a ha)
    · rw [get_students_at_desk_setCell_ne s row col r c _ he]
      exact inv.same_desk r c hrr hcc
  · intro r c hrr hcc p hp x hx y hy
    by_cases he : r = row ∧ c = col
    · obtain ⟨h1, h2⟩ := he
      subst h1; subst h2
      have hpne : ¬(p.1 = r ∧ p.2 = c) := by
        intro hcon
        exact get_neighbors_ne_self cfg r c p hp (Prod.ext_iff.mpr hcon)
      rw [get_students_at_desk_setCell_ne s r c p.1 p.2 _ hpne] at hy
      rw [hgs_self] at hx
      rcases List.mem_append.mp hx with hxl | hxs
      · exact inv.adjacent r c hrr hcc p hp x hxl y hy
      · have hx2 : x = student := by simpa using hxs
        subst hx2
        exact hadj_mem y p hp hy
    · rw [get_students_at_desk_setCell_ne s row col r c _ he] at hx
      by_cases hpe : p.1 = row ∧ p.2 = col
      · have hpdesk : get_students_at_desk
            (setCell s row col
              (Cell.desk (get_students_at_desk s row col ++ [student]))) p.1 p.2 =
            get_students_at_desk s row col ++ [student] := by
          rw [hpe.1, hpe.2]
          exact hgs_self
        rw [hpdesk] at hy
        rcases List.mem_append.mp hy with hyl | hys
        · refine inv.adjacent r c hrr hcc p hp x hx y ?_
          rw [hpe.1, hpe.2]
          exact hyl
        · have hy2 : y = student := by simpa using hys
          rw [hy2]
          have hsym : (r, c) ∈ get_neighbors cfg row col := by
            have hmem := get_neighbors_symm cfg r c p hrr hcc hp
            rw [hpe.1, hpe.2] at hmem
            exact hmem
          exact no_shared_group_symm cfg student x (hadj_mem x (r, c) hsym hx)
      · rw [get_students_at_desk_setCell_ne s row col p.1 p.2 _ hpe] at hy
        exact inv.adjacent r c hrr hcc p hp x hx y hy
  · intro r c hrr hcc x hx rr heq
    by_cases he : r = row ∧ c = col
    · obtain ⟨h1, h2⟩ := he
      subst h1; subst h2
      rw [hgs_self] at hx
      rcases List.mem_append.mp hx with hxl | hxs
      · exact inv.pinned_row r c hrr hcc x hxl rr heq
      · have hx2 : x = student := by simpa using hxs
        subst hx2
        exact hpin_r rr heq
    · rw [get_students_at_desk_setCell_ne s row col r c _ he] at hx
      exact inv.pinned_row r c hrr hcc x hx rr heq
  · intro r c hrr hcc x hx cc heq
    by_cases he : r = row ∧ c = col
    · obtain ⟨h1, h2⟩ := he
      subst h1; subst h2
      rw [hgs_self] at hx
      rcases List.mem_append.mp hx with hxl | hxs
      · exact inv.pinned_col r c hrr hcc x hxl cc heq
      · have hx2 : x = student := by simpa using hxs
        subst hx2
        exact hpin_c cc heq
    · rw [get_students_at_desk_setCell_ne s row col r c _ he] at hx
      exact inv.pinned_col r c hrr hcc x hx cc heq

/-! ### The initial chart -/

theorem getD_map_range {α : Type} (f : Nat → α) (n i : Nat) (d : α) (h : i < n) :
    ((List.range n).map f).getD i d = f i := by
  rw [List.getD_eq_getElem?_getD, List.getElem?_map, List.getElem?_range h]
  rfl

theorem getCell_initial (cfg : Config) (r c : Nat) (hr : r < cfg.rows)
    (hc : c < cfg.columns) :
    getCell (initial_seating cfg) r c =
      if (r, c) ∈ cfg.blocked_desks then Cell.blocked else Cell.desk [] := by
  unfold getCell initial_seating
  rw [getD_map_range _ _ _ _ hr, getD_map_range _ _ _ _ hc]

theorem getD_map_range_ge {α : Type} (f : Nat → α) (n i : Nat) (d : α) (h : n ≤ i) :
    ((List.range n).map f).getD i d = d := by
  rw [List.getD_eq_getElem?_getD, List.getElem?_eq_none (by simpa using h)]
  rfl

theorem get_students_at_desk_initial (cfg : Config) (r c : Nat) :
    get_students_at_desk (initial_seating cfg) r c = [] := by
  unfold get_students_at_desk
  by_cases hr : r < cfg.rows
  · by_cases hc : c < cfg.columns
    · rw [getCell_initial cfg r c hr hc]
      split_ifs <;> rfl
    · unfold getCell initial_seating
      rw [getD_map_range _ _ _ _ hr, getD_map_range_ge _ _ _ _ (by omega)]
  · unfold getCell initial_seating
    rw [getD_map_range_ge _ _ _ _ (by omega)]
    rfl

theorem Inv.initial (cfg : Config) : Inv cfg (initial_seating cfg) := by
  refine ⟨⟨?_, ?_⟩, ?_, ?_, ?_, ?_, ?_, ?_⟩
  · unfold initial_seating
    rw [List.length_map, List.length_range]
  · intro r hrr
    unfold initial_seating
    rw [getD_map_range _ _ _ _ hrr, List.length_map, List.length_range]
  · intro r c hrr hcc
    rw [getCell_initial cfg r c hrr hcc]
    split <;> simp_all
  · intro r c hrr hcc
    rw [get_students_at_desk_initial]
    simp [effective_max]
  · intro r c hrr hcc
    rw [get_students_at_desk_initial]
    simp
  · intro r c hrr hcc p hp x hx
    rw [get_students_at_desk_initial] at hx
    simp at hx
  · intro r c hrr hcc x hx
    rw [get_students_at_desk_initial] at hx
    simp at hx
  · intro r c hrr hcc x hx
    rw [get_students_at_desk_initial] at hx
    simp at hx

theorem mem_available_initial (cfg : Config) (p : Nat × Nat) :
    p ∈ available_positions cfg (initial_seating cfg) ↔
      p.1 < cfg.rows ∧ p.2 < cfg.columns ∧ p ∉ cfg.blocked_desks := by
  obtain ⟨p1, p2⟩ := p
  unfold available_positions
  simp only [List.mem_flatMap, List.mem_map, List.mem_filter, List.mem_range]
  constructor
  · rintro ⟨r, hrr, c, ⟨⟨hcc, hcell⟩, hpc⟩⟩
    obtain ⟨he1, he2⟩ := Prod.mk.injEq .. ▸ hpc
    subst he1; subst he2
    refine ⟨hrr, hcc, ?_⟩
    rw [getCell_initial cfg r c hrr hcc] at hcell
    intro hmem
    rw [if_pos hmem] at hcell
    simp at hcell
  · rintro ⟨h1, h2, h3⟩
    refine ⟨p1, h1, p2, ⟨⟨h2, ?_⟩, rfl⟩⟩
    rw [getCell_initial cfg p1 p2 h1 h2, if_neg h3]
    simp

/-! ### Tracking the names placed on the chart -/

theorem grid_names_initial (cfg : Config) : grid_names (initial_seating cfg) = [] := by
  unfold grid_names initial_seating
  rw [List.flatMap_eq_nil_iff.mpr]
  intro row hrow
  rw [List.mem_map] at hrow
  obtain ⟨r, _, hre⟩ := hrow
  subst hre
  rw [List.flatMap_eq_nil_iff.mpr]
  intro cell hcell
  rw [List.mem_map] at hcell
  obtain ⟨c, _, hce⟩ := hcell
  subst hce
  unfold cell_names
  split_ifs <;> rfl

theorem row_names_set (row : List Cell) (c : Nat) (l : List String) (x : String)
    (hc : c < row.length) (hcell : row.getD c Cell.blocked = Cell.desk l) :
    ((row.set c (Cell.desk (l ++ [x]))).flatMap cell_names).Perm
      (x :: row.flatMap cell_names) := by
  induction row generalizing c with
  | nil => simp at hc
  | cons a t ih =>
    cases c with
    | zero =>
      have ha : a = Cell.desk l := hcell
      subst ha
      simp only [List.set_cons_zero, List.flatMap_cons, cell_names]
      exact (List.perm_append_singleton x l).append_right (t.flatMap cell_names)
    | succ c2 =>
      have hc2 : c2 < t.length := by simpa using hc
      have hcell2 : t.getD c2 Cell.blocked = Cell.desk l := hcell
      simp only [List.set_cons_succ, List.flatMap_cons]
      exact ((ih c2 hc2 hcell2).append_left (cell_names a)).trans List.perm_middle

theorem grid_names_setCell (s : Seating) (row col : Nat) (l : List String)
    (x : String) (hr : row < s.length) (hc : col < (s.getD row []).length)
    (hcell : getCell s row col = Cell.desk l) :
    (grid_names (setCell s row col (Cell.desk (l ++ [x])))).Perm
      (x :: grid_names s) := by
  unfold setCell grid_names
  induction s generalizing row with
  | nil => simp at hr
  | cons a t ih =>
    cases row with
    | zero =>
      have hcl : a.getD col Cell.blocked = Cell.desk l := hcell
      have hcol : col < a.length := hc
      simp only [List.getD_cons_zero, List.set_cons_zero, List.flatMap_cons]
      exact (row_names_set a col l x hcol hcl).append_right
        (t.flatMap (fun r => r.flatMap cell_names))
    | succ r2 =>
      have hr2 : r2 < t.length := by simpa using hr
      have hc2 : col < (t.getD r2 []).length := hc
      have hcell2 : getCell t r2 col = Cell.desk l := hcell
      simp only [List.getD_cons_succ, List.set_cons_succ, List.flatMap_cons]
      exact ((ih r2 hr2 hc2 hcell2).append_left
        (a.flatMap cell_names)).trans List.perm_middle

/-! ### From one placement to a whole attempt -/

/-- A successful scan placed the student at some candidate position that
passed `_check_constraints`. -/
theorem try_positions_some (cfg : Config) (s : Seating) (student : String)
    (ps : List (Nat × Nat)) (s2 : Seating)
    (h : try_positions cfg s student ps = some s2) :
    ∃ p ∈ ps, check_constraints cfg s student p.1 p.2 = true ∧
      s2 = setCell s p.1 p.2
        (Cell.desk (get_students_at_desk s p.1 p.2 ++ [student])) := by
  induction ps with
  | nil => simp [try_positions] at h
  | cons p rest ih =>
    unfold try_positions at h
    by_cases hchk : check_constraints cfg s student p.1 p.2 = true
    · rw [if_pos hchk] at h
      exact ⟨p, List.mem_cons_self p rest, hchk, (Option.some.injEq .. ▸ h).symm⟩
    · rw [if_neg hchk] at h
      obtain ⟨q, hq, hq2, hq3⟩ := ih h
      exact ⟨q, List.mem_cons_of_mem p hq, hq2, hq3⟩

/-- The key invariant of the per-student loop: if every supplied position
shuffle only contains in-bounds non-blocked positions, a successful pass
preserves the invariant and appends exactly the placed students (as a
multiset) to the chart. -/
theorem place_students_spec (cfg : Config) (sts : List String) :
    ∀ s shuffles s2, Inv cfg s →
      (∀ sh ∈ shuffles, ∀ p ∈ sh,
        p.1 < cfg.rows ∧ p.2 < cfg.columns ∧ p ∉ cfg.blocked_desks) →
      place_students cfg s sts shuffles = some s2 →
      Inv cfg s2 ∧ (grid_names s2).Perm (sts ++ grid_names s) := by
  induction sts with
  | nil =>
    intro s shuffles s2 inv _ h
    have hs : s = s2 := by simpa [place_students] using h
    subst hs
    exact ⟨inv, List.Perm.refl _⟩
  | cons student rest ih =>
    intro s shuffles s2 inv hpos h
    unfold place_students at h
    cases htry : try_positions cfg s student
        (order_positions cfg s (shuffles.headD [])) with
    | none => rw [htry] at h; simp at h
    | some s1 =>
      rw [htry] at h
      simp only at h
      obtain ⟨p, hp, hchk, hs1⟩ := try_positions_some cfg s student _ s1 htry
      have hpb : p.1 < cfg.rows ∧ p.2 < cfg.columns ∧ p ∉ cfg.blocked_desks := by
        have hmem : p ∈ shuffles.headD [] := by
          unfold order_positions at hp
          exact (List.mem_insertionSort _).mp hp
        cases shuffles with
        | nil => simp at hmem
        | cons sh0 shrest =>
          exact hpos sh0 (List.mem_cons_self sh0 shrest) p hmem
      have hnb2 : (p.1, p.2) ∉ cfg.blocked_desks := by
        have : (p.1, p.2) = p := rfl
        rw [this]
        exact hpb.2.2
      have inv1 : Inv cfg s1 := by
        rw [hs1]
        exact Inv.place cfg s student p.1 p.2 inv hpb.1 hpb.2.1 hnb2 hchk
      have hpos2 : ∀ sh ∈ shuffles.tail, ∀ q ∈ sh,
          q.1 < cfg.rows ∧ q.2 < cfg.columns ∧ q ∉ cfg.blocked_desks :=
        fun sh hsh => hpos sh (List.tail_subset shuffles hsh)
      obtain ⟨inv2, hperm2⟩ := ih s1 shuffles.tail s2 inv1 hpos2 h
      refine ⟨inv2, ?_⟩
      have hnames1 : (grid_names s1).Perm (student :: grid_names s) := by
        rw [hs1]
        have hrs : p.1 < s.length := by rw [inv.wf.1]; exact hpb.1
        have hcs : p.2 < (s.getD p.1 []).length := by
          rw [inv.wf.2 p.1 hpb.1]
          exact hpb.2.1
        have hdesk : getCell s p.1 p.2 =
            Cell.desk (get_students_at_desk s p.1 p.2) := by
          refine getCell_eq_desk_of_ne_blocked s p.1 p.2 ?_
          intro hbl
          exact hnb2 ((inv.blocked p.1 p.2 hpb.1 hpb.2.1).mp hbl)
        exact grid_names_setCell s p.1 p.2 _ student hrs hcs hdesk
      have step1 : (grid_names s2).Perm (rest ++ grid_names s1) := hperm2
      have step2 : (rest ++ grid_names s1).Perm (rest ++ (student :: grid_names s)) :=
        hnames1.append_left rest
      exact (step1.trans step2).trans List.perm_middle

/-- A successful attempt with legitimate randomness yields an invariant-
satisfying chart holding exactly the configured students. -/
theorem run_attempt_spec (cfg : Config) (ar : AttemptRand) (s2 : Seating)
    (hv : valid_rand cfg ar) (h : run_attempt cfg ar = some s2) :
    Inv cfg s2 ∧ (grid_names s2).Perm cfg.students := by
  obtain ⟨hord, hsh⟩ := hv
  have hpos : ∀ sh ∈ ar.position_shuffles, ∀ p ∈ sh,
      p.1 < cfg.rows ∧ p.2 < cfg.columns ∧ p ∉ cfg.blocked_desks := by
    intro sh hshm p hp
    have : p ∈ available_positions cfg (initial_seating cfg) :=
      ((hsh sh hshm).mem_iff).mp hp
    exact (mem_available_initial cfg p).mp this
  obtain ⟨inv2, hperm⟩ := place_students_spec cfg ar.student_order
    (initial_seating cfg) ar.position_shuffles s2 (Inv.initial cfg) hpos h
  refine ⟨inv2, ?_⟩
  rw [grid_names_initial cfg, List.append_nil] at hperm
  exact hperm.trans hord

/-- A successful `generate` is the success of one of its attempts. -/
theorem generate_from_some (cfg : Config) (rands : Nat → AttemptRand) :
    ∀ n i s, generate_from cfg rands i n = some s →
      ∃ j, i ≤ j ∧ j < i + n ∧ run_attempt cfg (rands j) = some s := by
  intro n
  induction n with
  | zero => intro i s h; simp [generate_from] at h
  | succ n2 ih =>
    intro i s h
    unfold generate_from at h
    cases hrun : run_attempt cfg (rands i) with
    | some s0 =>
      rw [hrun] at h
      simp only [Option.some.injEq] at h
      exact ⟨i, Nat.le_refl i, by omega, by rw [hrun, h]⟩
    | none =>
      rw [hrun] at h
      simp only at h
      obtain ⟨j, hj1, hj2, hj3⟩ := ih (i + 1) s h
      exact ⟨j, by omega, by omega, hj3⟩

theorem generate_ok (cfg : Config) (m : Nat) (rands : Nat → AttemptRand)
    (s : Seating) (h : generate cfg m rands = Except.ok s) :
    ∃ j, j < m ∧ run_attempt cfg (rands j) = some s := by
  unfold generate at h
  cases hg : generate_from cfg rands 0 m with
  | some s0 =>
    rw [hg] at h
    simp only [Except.ok.injEq] at h
    subst h
    obtain ⟨j, _, hj2, hj3⟩ := generate_from_some cfg rands m 0 s0 hg
    exact ⟨j, by omega, hj3⟩
  | none => rw [hg] at h; simp at h

/-! ### The candidate ordering -/

theorem sort_key_le_total (cfg : Config) (s : Seating) (p q : Nat × Nat) :
    sort_key_le cfg s p q = true ∨ sort_key_le cfg s q p = true := by
  unfold sort_key_le
  simp only [Bool.or_eq_true, Bool.and_eq_true, decide_eq_true_iff, beq_iff_eq]
  omega

theorem sort_key_le_trans (cfg : Config) (s : Seating) (p q w : Nat × Nat)
    (h1 : sort_key_le cfg s p q = true) (h2 : sort_key_le cfg s q w = true) :
    sort_key_le cfg s p w = true := by
  unfold sort_key_le at *
  simp only [Bool.or_eq_true, Bool.and_eq_true, decide_eq_true_iff, beq_iff_eq] at *
  omega

theorem order_positions_sorted (cfg : Config) (s : Seating)
    (ps : List (Nat × Nat)) :
    (order_positions cfg s ps).Pairwise
      (fun p q => sort_key_le cfg s p q = true) := by
  exact @List.sorted_insertionSort _ (fun p q => sort_key_le cfg s p q = true) _
    ⟨fun a b => sort_key_le_total cfg s a b⟩
    ⟨fun a b c => sort_key_le_trans cfg s a b c⟩ ps

theorem order_positions_perm (cfg : Config) (s : Seating)
    (ps : List (Nat × Nat)) : (order_positions cfg s ps).Perm ps :=
  List.perm_insertionSort _ ps

/-- The resident-adjusted max used by `sort_key` is `effective_max` of the
desk's current occupants. -/
theorem sort_key_eq (cfg : Config) (s : Seating) (p : Nat × Nat) :
    sort_key cfg s p =
      if 0 < (get_students_at_desk s p.1 p.2).length ∧
          (get_students_at_desk s p.1 p.2).length <
            effective_max cfg p.1 p.2 (get_students_at_desk s p.1 p.2) then
        (0, (get_students_at_desk s p.1 p.2).length)
      else if (get_students_at_desk s p.1 p.2).length = 0 then (1, 0)
      else (2, (get_students_at_desk s p.1 p.2).length) := by
  unfold sort_key effective_max
  rfl

/-- The candidate's capped max never exceeds the desk's current effective
max. -/
theorem check_max_le_effective_max (cfg : Config) (student : String)
    (occ : List String) (row col : Nat) :
    check_max cfg student occ row col ≤ effective_max cfg row col occ := by
  unfold check_max effective_max
  cases ho : occ.any (fun d => cfg.large_students.contains d) <;>
    cases hs : cfg.large_students.contains student <;>
      simp [ho, hs]

/-- A desk at or above its effective max never passes `_check_constraints`. -/
theorem check_constraints_full (cfg : Config) (s : Seating) (student : String)
    (row col : Nat)
    (h : effective_max cfg row col (get_students_at_desk s row col) ≤
      (get_students_at_desk s row col).length) :
    check_constraints cfg s student row col = false := by
  cases hchk : check_constraints cfg s student row col with
  | false => rfl
  | true =>
    obtain ⟨_, _, hcap, _, _⟩ := check_constraints_spec cfg s student row col hchk
    have := check_max_le_effective_max cfg student
      (get_students_at_desk s row col) row col
    omega

/-! ### The attempt loop -/

theorem generate_from_of_first (cfg : Config) (rands : Nat → AttemptRand) :
    ∀ k n i s, k < n →
      (∀ j, i ≤ j → j < i + k → run_attempt cfg (rands j) = none) →
      run_attempt cfg (rands (i + k)) = some s →
      generate_from cfg rands i n = some s := by
  intro k
  induction k with
  | zero =>
    intro n i s hk hfail hsucc
    cases n with
    | zero => omega
    | succ n2 =>
      unfold generate_from
      rw [show i + 0 = i from rfl] at hsucc
      rw [hsucc]
  | succ k2 ih =>
    intro n i s hk hfail hsucc
    cases n with
    | zero => omega
    | succ n2 =>
      unfold generate_from
      rw [hfail i (Nat.le_refl i) (by omega)]
      exact ih n2 (i + 1) s (by omega)
        (fun j hj1 hj2 => hfail j (by omega) (by omega))
        (by rw [show i + 1 + k2 = i + (k2 + 1) from by omega]; exact hsucc)

theorem generate_from_all_fail (cfg : Config) (rands : Nat → AttemptRand) :
    ∀ n i, (∀ j, i ≤ j → j < i + n → run_attempt cfg (rands j) = none) →
      generate_from cfg rands i n = none := by
  intro n
  induction n with
  | zero => intro i _; rfl
  | succ n2 ih =>
    intro i hfail
    unfold generate_from
    rw [hfail i (Nat.le_refl i) (by omega)]
    exact ih (i + 1) (fun j hj1 hj2 => hfail j (by omega) (by omega))

/-! ### Reading information back out of a finished chart -/

theorem req_lookup_mem (reqs : List (String × Nat)) (x : String) (v : Nat)
    (h : req_lookup reqs x = some v) : (x, v) ∈ reqs := by
  unfold req_lookup at h
  cases hf : reqs.find? (fun p => p.1 == x) with
  | none => rw [hf] at h; simp at h
  | some pair =>
    rw [hf] at h
    have hmem := List.mem_of_find?_eq_some hf
    have hkey : pair.1 = x := by
      have := List.find?_some hf
      simpa using this
    have hv : pair.2 = v := Option.some.inj h
    have hpair : pair = (x, v) := by
      rw [← hkey, ← hv]
    rw [← hpair]
    exact hmem

theorem validate_spec (cfg : Config) (h : validate cfg = true) :
    cfg.students.length ≤ max_capacity_total cfg ∧
    (∀ p ∈ cfg.row_requirements, 1 ≤ p.2 ∧ p.2 ≤ cfg.rows) ∧
    (∀ p ∈ cfg.column_requirements, 1 ≤ p.2 ∧ p.2 ≤ cfg.columns) := by
  unfold validate at h
  simp only [Bool.and_eq_true, List.all_eq_true, decide_eq_true_iff] at h
  obtain ⟨⟨h1, h2⟩, h3⟩ := h
  exact ⟨h1, fun p hp => (h2 p hp), fun p hp => (h3 p hp)⟩

theorem mem_grid_names (cfg : Config) (s : Seating) (x : String) (inv : Inv cfg s)
    (hx : x ∈ grid_names s) :
    ∃ r c, r < cfg.rows ∧ c < cfg.columns ∧ x ∈ get_students_at_desk s r c := by
  unfold grid_names at hx
  rw [List.mem_flatMap] at hx
  obtain ⟨row, hrow, hx⟩ := hx
  rw [List.mem_flatMap] at hx
  obtain ⟨cell, hcell, hx⟩ := hx
  obtain ⟨r, hrlen, hre⟩ := List.mem_iff_getElem.mp hrow
  obtain ⟨c, hclen, hce⟩ := List.mem_iff_getElem.mp hcell
  have hr : r < cfg.rows := by rw [← inv.wf.1]; exact hrlen
  have hgetD : s.getD r [] = row := by
    rw [List.getD_eq_getElem s [] hrlen]; exact hre
  have hc : c < cfg.columns := by
    rw [← inv.wf.2 r hr, hgetD]; exact hclen
  have hcellget : getCell s r c = cell := by
    unfold getCell
    rw [hgetD, List.getD_eq_getElem row Cell.blocked hclen]
    exact hce
  refine ⟨r, c, hr, hc, ?_⟩
  cases hcl : cell with
  | blocked => rw [hcl] at hx; simp [cell_names] at hx
  | desk l =>
    unfold get_students_at_desk
    rw [hcellget, hcl]
    rw [hcl] at hx
    simpa [cell_names] using hx

/-! ### The seeded engine

The program draws all randomness from Python's global `random` module, seeded
once by `main` via `random.seed(args.seed)` (lines 340-342).  The `random`
module is library code, not part of this repository, so it is modelled from
the spec as a deterministic seedable generator threaded through every
shuffle. -/

/-- Modelled from the spec: a seedable deterministic pseudo-random source
("Randomness is provided by a single seedable source"); a linear
congruential step stands in for the Mersenne twister of Python's `random`,
whose code is not part of this repository. -/
def lcg_next (state : Nat) : Nat := (state * 1103515245 + 12345) % (2 ^ 31)

/-- Swap two indices of a list (used by the Fisher-Yates shuffle). -/
def list_swap {α : Type} [Inhabited α] (l : List α) (i j : Nat) : List α :=
  (l.set i (l.getD j default)).set j (l.getD i default)

/-- Modelled from the spec: the Fisher-Yates loop of `random.shuffle`
(library code outside this repository), driven by the deterministic
generator state. -/
def shuffle_rounds {α : Type} [Inhabited α] : List α → Nat → Nat → List α × Nat
  | l, state, 0 => (l, state)
  | l, state, i + 1 =>
    let state2 := lcg_next state
    shuffle_rounds (list_swap l (i + 1) (state2 % (i + 2))) state2 i

/-- Modelled from the spec: `random.shuffle(l)` as a pure function of the
generator state, returning the shuffled list and the advanced state. -/
def shuffle {α : Type} [Inhabited α] (l : List α) (state : Nat) : List α × Nat :=
  shuffle_rounds l state (l.length - 1)

/-- The per-student loop of one attempt, drawing each position shuffle from
the threaded generator state (the deterministic counterpart of
`place_students`). -/
def place_students_seeded (cfg : Config) :
    Seating → List String → Nat → Option Seating × Nat
  | s, [], state => (some s, state)
  | s, student :: rest, state =>
    let pr := shuffle (available_positions cfg s) state
    match try_positions cfg s student (order_positions cfg s pr.1) with
    | some s2 => place_students_seeded cfg s2 rest pr.2
    | none => (none, pr.2)

/-- One attempt of `generate` with the generator state threaded through the
student shuffle and every position shuffle. -/
def run_attempt_seeded (cfg : Config) (state : Nat) : Option Seating × Nat :=
  let pr := shuffle cfg.students state
  place_students_seeded cfg (initial_seating cfg) pr.1 pr.2

/-- The attempt loop of the seeded engine. -/
def generate_seeded_from (cfg : Config) (m : Nat) : Nat → Nat → Except Nat Seating
  | 0, _ => Except.error m
  | remaining + 1, state =>
    match run_attempt_seeded cfg state with
    | (some s, _) => Except.ok s
    | (none, state2) => generate_seeded_from cfg m remaining state2

/-- `generate` as run by `main` after `random.seed(seed)`: a pure function
of the configuration, the attempt budget and the seed. -/
def generate_seeded (cfg : Config) (m seed : Nat) : Except Nat Seating :=
  generate_seeded_from cfg m m seed

/-! ### Example configurations used by witnesses and counterexamples -/

/-- A 1-by-1 classroom with max capacity 3 and a large student `L` sharing
the single desk with a normal student `S`. -/
def cfg_large_pair : Config where
  rows := 1
  columns := 1
  students := ["L", "S"]
  blocked_desks := []
  desk_capacity_overrides := []
  default_min_capacity := 2
  default_max_capacity := 3
  cannot_sit_together := []
  large_students := ["L"]
  row_requirements := []
  column_requirements := []

/-- Randomness placing `L` then `S` at the single desk. -/
def ar_large_pair : AttemptRand where
  student_order := ["L", "S"]
  position_shuffles := [[(0, 0)], [(0, 0)]]

/-- A 1-by-3 single-seat classroom with the mutual-exclusion group
`{A, B}`. -/
def cfg_excl : Config where
  rows := 1
  columns := 3
  students := ["A", "B"]
  blocked_desks := []
  desk_capacity_overrides := []
  default_min_capacity := 1
  default_max_capacity := 1
  cannot_sit_together := [["A", "B"]]
  large_students := []
  row_requirements := []
  column_requirements := []

/-- Randomness for `cfg_excl`: `A` lands on desk `(0,0)`, and `B`, refused
at the adjacent `(0,1)`, lands on `(0,2)`. -/
def ar_excl : AttemptRand where
  student_order := ["A", "B"]
  position_shuffles := [[(0, 0), (0, 1), (0, 2)], [(0, 0), (0, 1), (0, 2)]]

/-- A 2-by-2 single-seat classroom pinning `A` to row 2 and column 1. -/
def cfg_pin : Config where
  rows := 2
  columns := 2
  students := ["A"]
  blocked_desks := []
  desk_capacity_overrides := []
  default_min_capacity := 1
  default_max_capacity := 1
  cannot_sit_together := []
  large_students := []
  row_requirements := [("A", 2)]
  column_requirements := [("A", 1)]

/-- Randomness for `cfg_pin`. -/
def ar_pin : AttemptRand where
  student_order := ["A"]
  position_shuffles := [[(0, 0), (0, 1), (1, 0), (1, 1)]]

/-- One desk of max capacity 1 facing two students: construction must
raise. -/
def cfg_overflow : Config where
  rows := 1
  columns := 1
  students := ["A", "B"]
  blocked_desks := []
  desk_capacity_overrides := []
  default_min_capacity := 1
  default_max_capacity := 1
  cannot_sit_together := []
  large_students := []
  row_requirements := []
  column_requirements := []

/-- One desk of max capacity 2 facing a large student and a normal student:
the weight-adjusted capacity is 1, the unadjusted capacity 2. -/
def cfg_adjusted : Config where
  rows := 1
  columns := 1
  students := ["L", "S"]
  blocked_desks := []
  desk_capacity_overrides := []
  default_min_capacity := 1
  default_max_capacity := 2
  cannot_sit_together := []
  large_students := ["L"]
  row_requirements := []
  column_requirements := []

/-- A 1-by-2 classroom with max capacity 3 and four students, three of them
pinned by column so a run reaches desks with occupancies 1 and 2. -/
def cfg_tiers : Config where
  rows := 1
  columns := 2
  students := ["A", "B", "C", "D"]
  blocked_desks := []
  desk_capacity_overrides := []
  default_min_capacity := 1
  default_max_capacity := 3
  cannot_sit_together := []
  large_students := []
  row_requirements := []
  column_requirements := [("A", 1), ("B", 2), ("C", 2)]

/-- The chart `generate` reaches for `cfg_tiers` after placing `A`, `B`,
`C`: desk `(0,0)` holds one student, desk `(0,1)` holds two. -/
def seating_tiers : Seating := [[Cell.desk ["A"], Cell.desk ["B", "C"]]]

/-- A chart for `cfg_tiers` whose desk `(0,1)` is full. -/
def seating_full : Seating := [[Cell.desk ["A"], Cell.desk ["B", "C", "E"]]]

/-- A 1-by-1 classroom with min capacity 2, max capacity 3 and a single
student. -/
def cfg_single : Config where
  rows := 1
  columns := 1
  students := ["A"]
  blocked_desks := []
  desk_capacity_overrides := []
  default_min_capacity := 2
  default_max_capacity := 3
  cannot_sit_together := []
  large_students := []
  row_requirements := []
  column_requirements := []

/-- Randomness for `cfg_single`. -/
def ar_single : AttemptRand where
  student_order := ["A"]
  position_shuffles := [[(0, 0)]]

/-! ### Claim theorems -/

/-- Claim C1, amended: in every chart returned by `generate`, every desk's
occupant count (each student counting 1, large or not) is at most the desk's
effective max capacity - the configured max, capped at 2 when the desk holds
a large student.  The claim's weight-based bound (large students counting 2)
is false of the code, which compares the plain occupant count; see the
counterexample. -/
theorem capacity_count_invariant (cfg : Config) (m : Nat)
    (rands : Nat → AttemptRand) (s : Seating)
    (hr : ∀ i, valid_rand cfg (rands i))
    (h : generate cfg m rands = Except.ok s) :
    ∀ r c, r < cfg.rows → c < cfg.columns →
      (get_students_at_desk s r c).length ≤
        effective_max cfg r c (get_students_at_desk s r c) := by
  obtain ⟨j, _, hrun⟩ := generate_ok cfg m rands s h
  exact (run_attempt_spec cfg (rands j) s (hr j) hrun).1.cap

/-- Witness for C1's amended theorem on a concrete successful run. -/
theorem capacity_count_invariant_witness :
    (get_students_at_desk [[Cell.desk ["L", "S"]]] 0 0).length ≤
      effective_max cfg_large_pair 0 0
        (get_students_at_desk [[Cell.desk ["L", "S"]]] 0 0) :=
  capacity_count_invariant cfg_large_pair 1 (fun _ => ar_large_pair)
    [[Cell.desk ["L", "S"]]] (fun _ => (by decide : valid_rand cfg_large_pair ar_large_pair)) rfl 0 0
    (by decide) (by decide)

/-- Counterexample to claim C1 as stated: with one ordinary desk of max 3,
a large student `L` and a normal student `S`, `generate` (with genuinely
possible randomness) returns a chart whose single desk has occupant weight
3 (L counts 2, S counts 1), exceeding its effective max capacity 2. -/
theorem capacity_weight_exceeded :
    validate cfg_large_pair = true ∧
    valid_rand cfg_large_pair ar_large_pair ∧
    generate cfg_large_pair 1 (fun _ => ar_large_pair) =
      Except.ok [[Cell.desk ["L", "S"]]] ∧
    occupant_weight cfg_large_pair
      (get_students_at_desk [[Cell.desk ["L", "S"]]] 0 0) = 3 ∧
    effective_max cfg_large_pair 0 0
      (get_students_at_desk [[Cell.desk ["L", "S"]]] 0 0) = 2 :=
  ⟨by decide, by decide, rfl, by decide, by decide⟩

/-- Claim C2: in every chart returned by `generate`, no two students sharing
a `cannot_sit_together` group occupy the same desk, and none occupy
edge-adjacent desks (up/down/left/right neighbours, no diagonals, no
wraparound). -/
theorem mutual_exclusion_respected (cfg : Config) (m : Nat)
    (rands : Nat → AttemptRand) (s : Seating)
    (hr : ∀ i, valid_rand cfg (rands i))
    (h : generate cfg m rands = Except.ok s) :
    ∀ g ∈ cfg.cannot_sit_together,
      (∀ r c, r < cfg.rows → c < cfg.columns →
        (get_students_at_desk s r c).Pairwise (fun x y => ¬(x ∈ g ∧ y ∈ g))) ∧
      (∀ r c, r < cfg.rows → c < cfg.columns →
        ∀ p ∈ get_neighbors cfg r c, ∀ x ∈ get_students_at_desk s r c,
          ∀ y ∈ get_students_at_desk s p.1 p.2, ¬(x ∈ g ∧ y ∈ g)) := by
  obtain ⟨j, _, hrun⟩ := generate_ok cfg m rands s h
  have inv := (run_attempt_spec cfg (rands j) s (hr j) hrun).1
  intro g hg
  constructor
  · intro r c hrr hcc
    exact (inv.same_desk r c hrr hcc).imp (fun h2 => h2 g hg)
  · intro r c hrr hcc p hp x hx y hy
    exact inv.adjacent r c hrr hcc p hp x hx y hy g hg

/-- Witness for C2 on a concrete run where the exclusion group `{A, B}`
forces `B` two desks away from `A`. -/
theorem mutual_exclusion_respected_witness :
    (∀ r c, r < cfg_excl.rows → c < cfg_excl.columns →
      (get_students_at_desk [[Cell.desk ["A"], Cell.desk [], Cell.desk ["B"]]]
        r c).Pairwise
        (fun x y => ¬(x ∈ (["A", "B"] : List String) ∧ y ∈ (["A", "B"] : List String)))) ∧
    (∀ r c, r < cfg_excl.rows → c < cfg_excl.columns →
      ∀ p ∈ get_neighbors cfg_excl r c,
        ∀ x ∈ get_students_at_desk
          [[Cell.desk ["A"], Cell.desk [], Cell.desk ["B"]]] r c,
          ∀ y ∈ get_students_at_desk
            [[Cell.desk ["A"], Cell.desk [], Cell.desk ["B"]]] p.1 p.2,
            ¬(x ∈ (["A", "B"] : List String) ∧ y ∈ (["A", "B"] : List String))) :=
  mutual_exclusion_respected cfg_excl 1 (fun _ => ar_excl)
    [[Cell.desk ["A"], Cell.desk [], Cell.desk ["B"]]]
    (fun _ => (by decide : valid_rand cfg_excl ar_excl)) rfl ["A", "B"] (by decide)

/-- Claim C3: in every chart returned by `generate` (construction having
validated), a student with a row requirement sits only in that 1-indexed
row, a student with a column requirement sits only in that column, and a
student with both sits at exactly the desk where they meet. -/
theorem pinned_requirements_respected (cfg : Config) (m : Nat)
    (rands : Nat → AttemptRand) (s : Seating)
    (hval : validate cfg = true)
    (hr : ∀ i, valid_rand cfg (rands i))
    (h : generate cfg m rands = Except.ok s) :
    (∀ x rr, req_lookup cfg.row_requirements x = some rr →
      ∀ r c, r < cfg.rows → c < cfg.columns →
        x ∈ get_students_at_desk s r c → r + 1 = rr) ∧
    (∀ x cc, req_lookup cfg.column_requirements x = some cc →
      ∀ r c, r < cfg.rows → c < cfg.columns →
        x ∈ get_students_at_desk s r c → c + 1 = cc) ∧
    (∀ x ∈ cfg.students, ∀ rr cc,
      req_lookup cfg.row_requirements x = some rr →
      req_lookup cfg.column_requirements x = some cc →
      x ∈ get_students_at_desk s (rr - 1) (cc - 1) ∧
      ∀ r c, r < cfg.rows → c < cfg.columns →
        x ∈ get_students_at_desk s r c → r = rr - 1 ∧ c = cc - 1) := by
  obtain ⟨j, _, hrun⟩ := generate_ok cfg m rands s h
  obtain ⟨inv, hperm⟩ := run_attempt_spec cfg (rands j) s (hr j) hrun
  obtain ⟨_, hrows, hcols⟩ := validate_spec cfg hval
  have hrow_all : ∀ x rr, req_lookup cfg.row_requirements x = some rr →
      ∀ r c, r < cfg.rows → c < cfg.columns →
        x ∈ get_students_at_desk s r c → r + 1 = rr := by
    intro x rr hreq r c hrr hcc hx
    have h1 : r = rr - 1 := inv.pinned_row r c hrr hcc x hx rr hreq
    have h2 : 1 ≤ rr := (hrows (x, rr) (req_lookup_mem _ x rr hreq)).1
    omega
  have hcol_all : ∀ x cc, req_lookup cfg.column_requirements x = some cc →
      ∀ r c, r < cfg.rows → c < cfg.columns →
        x ∈ get_students_at_desk s r c → c + 1 = cc := by
    intro x cc hreq r c hrr hcc hx
    have h1 : c = cc - 1 := inv.pinned_col r c hrr hcc x hx cc hreq
    have h2 : 1 ≤ cc := (hcols (x, cc) (req_lookup_mem _ x cc hreq)).1
    omega
  refine ⟨hrow_all, hcol_all, ?_⟩
  intro x hxs rr cc hreqr hreqc
  have hxg : x ∈ grid_names s := hperm.mem_iff.mpr hxs
  obtain ⟨r, c, hrr, hcc, hx⟩ := mem_grid_names cfg s x inv hxg
  have h1 : r + 1 = rr := hrow_all x rr hreqr r c hrr hcc hx
  have h2 : c + 1 = cc := hcol_all x cc hreqc r c hrr hcc hx
  constructor
  · rw [show rr - 1 = r from by omega, show cc - 1 = c from by omega]
    exact hx
  · intro r2 c2 hrr2 hcc2 hx2
    have h3 : r2 + 1 = rr := hrow_all x rr hreqr r2 c2 hrr2 hcc2 hx2
    have h4 : c2 + 1 = cc := hcol_all x cc hreqc r2 c2 hrr2 hcc2 hx2
    omega

/-- Witness for C3 on a concrete run pinning `A` to row 2, column 1 of a
2-by-2 grid. -/
theorem pinned_requirements_respected_witness :
    (∀ x rr, req_lookup cfg_pin.row_requirements x = some rr →
      ∀ r c, r < cfg_pin.rows → c < cfg_pin.columns →
        x ∈ get_students_at_desk
          [[Cell.desk [], Cell.desk []], [Cell.desk ["A"], Cell.desk []]] r c →
        r + 1 = rr) ∧
    (∀ x cc, req_lookup cfg_pin.column_requirements x = some cc →
      ∀ r c, r < cfg_pin.rows → c < cfg_pin.columns →
        x ∈ get_students_at_desk
          [[Cell.desk [], Cell.desk []], [Cell.desk ["A"], Cell.desk []]] r c →
        c + 1 = cc) ∧
    (∀ x ∈ cfg_pin.students, ∀ rr cc,
      req_lookup cfg_pin.row_requirements x = some rr →
      req_lookup cfg_pin.column_requirements x = some cc →
      x ∈ get_students_at_desk
        [[Cell.desk [], Cell.desk []], [Cell.desk ["A"], Cell.desk []]]
        (rr - 1) (cc - 1) ∧
      ∀ r c, r < cfg_pin.rows → c < cfg_pin.columns →
        x ∈ get_students_at_desk
          [[Cell.desk [], Cell.desk []], [Cell.desk ["A"], Cell.desk []]] r c →
        r = rr - 1 ∧ c = cc - 1) :=
  pinned_requirements_respected cfg_pin 1 (fun _ => ar_pin)
    [[Cell.desk [], Cell.desk []], [Cell.desk ["A"], Cell.desk []]]
    (by decide) (fun _ => (by decide : valid_rand cfg_pin ar_pin)) rfl

/-- Claim C4, amended: construction raises `ValueError` whenever the student
count exceeds the sum of non-blocked desks' max capacities, with no
downward adjustment for large students; in particular a student count one
greater than that unadjusted total always raises.  The claim's
weight-adjusted threshold is false of the code; see the counterexample. -/
theorem validate_capacity_overflow (cfg : Config)
    (h : max_capacity_total cfg < cfg.students.length) :
    validate cfg = false := by
  cases hv : validate cfg with
  | false => rfl
  | true =>
    have := (validate_spec cfg hv).1
    omega

/-- Witness for C4's amended theorem: two students, one desk of capacity
one. -/
theorem validate_capacity_overflow_witness : validate cfg_overflow = false :=
  validate_capacity_overflow cfg_overflow (by decide)

/-- Counterexample to claim C4 as stated: one desk of max 2, students
`L` (large) and `S`.  The weight-adjusted capacity is `2 - 1 = 1` and the
student count 2 exceeds it by exactly one, yet construction accepts the
configuration (`_validate` sums raw max capacities and never subtracts for
large students). -/
theorem validate_no_weight_adjustment :
    max_capacity_total cfg_adjusted = 2 ∧
    (cfg_adjusted.students.filter
      (fun st => cfg_adjusted.large_students.contains st)).length = 1 ∧
    cfg_adjusted.students.length =
      (max_capacity_total cfg_adjusted -
        (cfg_adjusted.students.filter
          (fun st => cfg_adjusted.large_students.contains st)).length) + 1 ∧
    validate cfg_adjusted = true := by
  refine ⟨by decide, by decide, by decide, by decide⟩

/-- Claim C5, amended: the scanned candidate list is the stable sort of the
shuffled positions by `sort_key`, ascending: desks in tier 0 (1 or more
occupants, strictly under the resident-large-adjusted max) come first, then
tier 1 (empty desks), then tier 2 (full desks); within tier 0 the key's
second component is the occupant count, so desks with LOWER occupancy are
tried first (the claim's "higher occupancy preferred" is false of the
ascending sort; see the counterexample).  Desks at or above their effective
max never pass `_check_constraints`, so full desks never receive a
student. -/
theorem candidate_order_spec (cfg : Config) (s : Seating)
    (ps : List (Nat × Nat)) :
    ((order_positions cfg s ps).Perm ps) ∧
    ((order_positions cfg s ps).Pairwise
      (fun p q => sort_key_le cfg s p q = true)) ∧
    (∀ p : Nat × Nat,
      ((sort_key cfg s p).1 = 0 ↔
        0 < (get_students_at_desk s p.1 p.2).length ∧
        (get_students_at_desk s p.1 p.2).length <
          effective_max cfg p.1 p.2 (get_students_at_desk s p.1 p.2)) ∧
      ((sort_key cfg s p).1 = 1 ↔ (get_students_at_desk s p.1 p.2).length = 0) ∧
      ((sort_key cfg s p).1 = 0 →
        (sort_key cfg s p).2 = (get_students_at_desk s p.1 p.2).length)) ∧
    (∀ (student : String) (p : Nat × Nat),
      effective_max cfg p.1 p.2 (get_students_at_desk s p.1 p.2) ≤
        (get_students_at_desk s p.1 p.2).length →
      check_constraints cfg s student p.1 p.2 = false) := by
  refine ⟨order_positions_perm cfg s ps, order_positions_sorted cfg s ps, ?_, ?_⟩
  · intro p
    rw [sort_key_eq cfg s p]
    split_ifs with h1 h2
    · refine ⟨⟨fun _ => h1, fun _ => rfl⟩, ⟨fun h => ?_, fun h => ?_⟩,
        fun _ => rfl⟩
      · exact absurd h (by simp)
      · exact absurd h (by omega)
    · refine ⟨⟨fun h => ?_, fun hx => ?_⟩, ⟨fun _ => h2, fun _ => rfl⟩,
        fun h => ?_⟩
      · exact absurd h (by simp)
      · exact absurd h2 (by omega)
      · exact absurd h (by simp)
    · refine ⟨⟨fun h => ?_, fun hx => ?_⟩, ⟨fun h => ?_, fun h => ?_⟩,
        fun h => ?_⟩
      · exact absurd h (by simp)
      · exact absurd hx h1
      · exact absurd h (by simp)
      · exact absurd h h2
      · exact absurd h (by simp)
  · intro student p hfull
    exact check_constraints_full cfg s student p.1 p.2 hfull

/-- Witness for C5's amended theorem: a full desk rejects every candidate. -/
theorem candidate_order_spec_witness :
    check_constraints cfg_tiers seating_full "D" 0 1 = false :=
  (candidate_order_spec cfg_tiers seating_full [(0, 1)]).2.2.2 "D" (0, 1)
    (by decide)

/-- Counterexample to claim C5 as stated: on the reachable chart
`seating_tiers` (desk `(0,0)` holds 1 student, desk `(0,1)` holds 2, both
partially filled under max 3), the sort places the LOWER-occupancy desk
first even when the shuffle listed the higher-occupancy desk first - the
claim's "desks with higher current occupancy are preferred" is false. -/
theorem candidate_order_prefers_lower :
    place_students cfg_tiers (initial_seating cfg_tiers) ["A", "B", "C"]
      [[(0, 0), (0, 1)], [(0, 0), (0, 1)], [(0, 0), (0, 1)]] =
      some seating_tiers ∧
    sort_key cfg_tiers seating_tiers (0, 0) = (0, 1) ∧
    sort_key cfg_tiers seating_tiers (0, 1) = (0, 2) ∧
    order_positions cfg_tiers seating_tiers [(0, 1), (0, 0)] =
      [(0, 0), (0, 1)] :=
  ⟨rfl, by decide, by decide, by decide⟩

/-- Claim C6: `generate` returns the chart of the first successful attempt
and runs no later attempt (the result is unchanged under any alteration of
the randomness of attempts after the first success); if all `max_attempts`
attempts fail it returns the error carrying the attempt count, and no chart
accompanies a failure. -/
theorem generate_attempt_loop (cfg : Config) (m : Nat)
    (rands rands2 : Nat → AttemptRand) :
    (∀ k s, k < m →
      (∀ j, j < k → run_attempt cfg (rands j) = none) →
      run_attempt cfg (rands k) = some s →
      (∀ j, j ≤ k → rands2 j = rands j) →
      generate cfg m rands = Except.ok s ∧
      generate cfg m rands2 = Except.ok s) ∧
    ((∀ j, j < m → run_attempt cfg (rands j) = none) →
      generate cfg m rands = Except.error m) := by
  constructor
  · intro k s hk hfail hsucc hagree
    have h1 : generate_from cfg rands 0 m = some s :=
      generate_from_of_first cfg rands k m 0 s hk
        (fun j _ hj2 => hfail j (by omega)) (by simpa using hsucc)
    have h2 : generate_from cfg rands2 0 m = some s :=
      generate_from_of_first cfg rands2 k m 0 s hk
        (fun j _ hj2 => by
          rw [hagree j (by omega)]
          exact hfail j (by omega))
        (by
          rw [show (0 : Nat) + k = k from by omega, hagree k (Nat.le_refl k)]
          exact hsucc)
    exact ⟨by unfold generate; rw [h1], by unfold generate; rw [h2]⟩
  · intro hfail
    have h0 : generate_from cfg rands 0 m = none :=
      generate_from_all_fail cfg rands m 0 (fun j _ hj2 => hfail j (by omega))
    unfold generate
    rw [h0]

/-- Witness for C6: with a first attempt that succeeds, `generate`
returns that attempt's chart. -/
theorem generate_attempt_loop_witness :
    generate cfg_single 2 (fun _ => ar_single) = Except.ok [[Cell.desk ["A"]]] :=
  ((generate_attempt_loop cfg_single 2 (fun _ => ar_single)
      (fun _ => ar_single)).1 0 [[Cell.desk ["A"]]] (by decide)
    (fun j hj => absurd hj (Nat.not_lt_zero j)) rfl (fun _ _ => rfl)).1

/-- Claim C7: construction raises exactly when the student count exceeds the
total capacity or a required row or column is out of its 1-indexed bounds;
in particular duplicate student names, an empty student list and
mutual-exclusion groups naming unknown students never cause an error (the
right-hand side mentions nothing else of the configuration). -/
theorem validate_characterization (cfg : Config) :
    validate cfg = false ↔
      max_capacity_total cfg < cfg.students.length ∨
      (∃ p ∈ cfg.row_requirements, p.2 < 1 ∨ cfg.rows < p.2) ∨
      (∃ p ∈ cfg.column_requirements, p.2 < 1 ∨ cfg.columns < p.2) := by
  cases hv : validate cfg with
  | true =>
    obtain ⟨h1, h2, h3⟩ := validate_spec cfg hv
    constructor
    · intro hcon
      exact absurd hcon (by simp)
    · rintro (h | ⟨p, hp, hbad⟩ | ⟨p, hp, hbad⟩)
      · omega
      · have := h2 p hp
        omega
      · have := h3 p hp
        omega
  | false =>
    refine ⟨fun _ => ?_, fun _ => rfl⟩
    unfold validate at hv
    simp only [Bool.and_eq_false_iff, List.all_eq_false,
      decide_eq_false_iff_not, not_le] at hv
    rcases hv with (h | ⟨p, hp, hbad⟩) | ⟨p, hp, hbad⟩
    · exact Or.inl h
    · refine Or.inr (Or.inl ⟨p, hp, ?_⟩)
      simp only [Bool.and_eq_true, decide_eq_true_iff, not_and_or, not_le] at hbad
      exact hbad
    · refine Or.inr (Or.inr ⟨p, hp, ?_⟩)
      simp only [Bool.and_eq_true, decide_eq_true_iff, not_and_or, not_le] at hbad
      exact hbad

/-- Claim C8: the engine is deterministic given the seed.  In the embedding
every shuffle is a pure function of the threaded generator state, so two
invocations of the seeded engine on the same configuration, attempt budget
and seed return the same chart or the same failure (the error already
carries the attempt count). -/
theorem deterministic_given_seed (cfg : Config) (m seed1 seed2 : Nat)
    (h : seed1 = seed2) :
    generate_seeded cfg m seed1 = generate_seeded cfg m seed2 := by
  rw [h]

/-- Witness for C8 at a concrete configuration and seed. -/
theorem deterministic_given_seed_witness :
    generate_seeded cfg_single 1 42 = generate_seeded cfg_single 1 42 :=
  deterministic_given_seed cfg_single 1 42 42 rfl

/-- Claim C9: `generate` never rejects a successful attempt for violating
minimum desk capacity.  With min capacity 2 and a single student, a run
with genuinely possible randomness returns a chart whose only desk holds
one student (non-zero but below the min), and `_verify_min_capacities`
rejects that very chart - so the returned grid was not filtered through
it. -/
theorem min_capacity_not_enforced :
    validate cfg_single = true ∧
    valid_rand cfg_single ar_single ∧
    (get_desk_capacity cfg_single 0 0).1 = 2 ∧
    generate cfg_single 1 (fun _ => ar_single) = Except.ok [[Cell.desk ["A"]]] ∧
    (get_students_at_desk [[Cell.desk ["A"]]] 0 0).length = 1 ∧
    verify_min_capacities cfg_single [[Cell.desk ["A"]]] = false :=
  ⟨by decide, by decide, by decide, rfl, by decide, by decide⟩

/-- Claim C10: in every chart returned by `generate`, the placed names are
exactly the configured student list as a multiset (so every occupant is a
configured student), every in-bounds blocked position carries the `BLOCKED`
marker (and hence holds no students), and when the student names are
distinct every student occupies exactly one desk cell exactly once. -/
theorem placement_accounting (cfg : Config) (m : Nat)
    (rands : Nat → AttemptRand) (s : Seating)
    (hr : ∀ i, valid_rand cfg (rands i))
    (h : generate cfg m rands = Except.ok s) :
    (∀ x : String, (grid_names s).count x = cfg.students.count x) ∧
    (∀ x ∈ grid_names s, x ∈ cfg.students) ∧
    (∀ p ∈ cfg.blocked_desks, p.1 < cfg.rows → p.2 < cfg.columns →
      getCell s p.1 p.2 = Cell.blocked) ∧
    (cfg.students.Nodup → ∀ x ∈ cfg.students, (grid_names s).count x = 1) := by
  obtain ⟨j, _, hrun⟩ := generate_ok cfg m rands s h
  obtain ⟨inv, hperm⟩ := run_attempt_spec cfg (rands j) s (hr j) hrun
  refine ⟨?_, ?_, ?_, ?_⟩
  · intro x
    exact hperm.count_eq x
  · intro x hx
    exact hperm.mem_iff.mp hx
  · intro p hp h1 h2
    exact (inv.blocked p.1 p.2 h1 h2).mpr hp
  · intro hnd x hx
    rw [hperm.count_eq x]
    exact List.count_eq_one_of_mem hnd hx

/-- Witness for C10 on a concrete successful run. -/
theorem placement_accounting_witness :
    (∀ x : String, (grid_names [[Cell.desk ["L", "S"]]]).count x =
      cfg_large_pair.students.count x) ∧
    (∀ x ∈ grid_names [[Cell.desk ["L", "S"]]], x ∈ cfg_large_pair.students) ∧
    (∀ p ∈ cfg_large_pair.blocked_desks,
      p.1 < cfg_large_pair.rows → p.2 < cfg_large_pair.columns →
      getCell [[Cell.desk ["L", "S"]]] p.1 p.2 = Cell.blocked) ∧
    (cfg_large_pair.students.Nodup → ∀ x ∈ cfg_large_pair.students,
      (grid_names [[Cell.desk ["L", "S"]]]).count x = 1) :=
  placement_accounting cfg_large_pair 1 (fun _ => ar_large_pair)
    [[Cell.desk ["L", "S"]]]
    (fun _ => (by decide : valid_rand cfg_large_pair ar_large_pair)) rfl

end SeatingChart
